import Mathlib

/-!
Verification of the doldisasm PowerPC/DOL static analyzer.

Shallow embedding of the Rust sources:
* `src/ppc32/src/word.rs`      — 32-bit big-endian bit-field extraction (`Word`)
* `src/ppc32/src/instruction.rs` — instruction grammar, `BranchOptions`,
  `SpecialPurposeRegister`, `TimeBaseRegister`, `compute_branch_target`
* `src/ppc32/src/decoder.rs`   — the raw word decoder with its error modes
* `src/dol/src/lib.rs`         — the DOL container header reader
* `src/cli/src/value.rs`       — the symbolic value lattice (`VInt`, `Value`)
* `src/cli/src/disasm.rs`      — `RegisterState`, `BlockState`, the transfer
  function `Analysis::apply_effect` and `BlockState::join`

Machine integers are modelled as `Nat` with explicit `% 2^w` at the points
where the Rust code wraps or truncates.  Rust panics (`assert!`, `todo!()`,
`unwrap()`, out-of-bounds indexing) are modelled by `Option`/`Except`
results, with `none` standing for a panic.  IEEE f32 addition (used only in
the float/float branch of `VInt::add`) is not given a concrete semantics;
it is threaded through as an explicit bit-level parameter `fadd`, which no
theorem below depends on.
-/

namespace Doldisasm

namespace Word

/-- Rust `Word::u32::<FROM, TO>`:
`let mask = (!0u32) >> (FROM + (31 - TO)) << (31 - TO); (word & mask) >> (31 - TO)`.
The `% 2^32` models the `u32` width of the shifted mask (no bits are in fact
lost when `FROM ≤ TO ≤ 31`, as proved below). -/
def u32 (FROM TO w : Nat) : Nat :=
  let mask := (((2 ^ 32 - 1) >>> (FROM + (31 - TO))) <<< (31 - TO)) % 2 ^ 32
  (w &&& mask) >>> (31 - TO)

/-- Rust `Word::opcode`: `self.0 >> 26`. -/
def opcode (w : Nat) : Nat := w >>> 26

/-- Rust `Word::xform_opcode`: bits 21–30. -/
def xform_opcode (w : Nat) : Nat := u32 21 30 w

/-- Rust `Word::u16`: the `u32` extraction truncated to 16 bits (`as u16`). -/
def u16 (FROM TO w : Nat) : Nat := u32 FROM TO w % 2 ^ 16

/-- Rust `Word::u8`: the `u32` extraction truncated to 8 bits (`as u8`). -/
def u8 (FROM TO w : Nat) : Nat := u32 FROM TO w % 2 ^ 8

/-- Reinterpret the low `bits` bits of `v` as a two's-complement signed
integer (`as iN` on an unsigned value of the same width). -/
def toSigned (bits v : Nat) : Int :=
  if v % 2 ^ bits < 2 ^ (bits - 1) then (v % 2 ^ bits : Int)
  else (v % 2 ^ bits : Int) - 2 ^ bits

/-- Rust `Word::i32`: `self.u32::<FROM, TO>() as i32` (reinterpretation of the
full 32-bit value; the narrow field is NOT sign-extended). -/
def i32 (FROM TO w : Nat) : Int := toSigned 32 (u32 FROM TO w)

/-- Rust `Word::i16`: `self.u16::<FROM, TO>() as i16`. -/
def i16 (FROM TO w : Nat) : Int := toSigned 16 (u16 FROM TO w)

/-- Rust `Word::i8`: `self.u8::<FROM, TO>() as i8`. -/
def i8 (FROM TO w : Nat) : Int := toSigned 8 (u8 FROM TO w)

/-- Rust `Word::bit::<BIT>`: `self.0 & (1 << (31 - BIT))`. -/
def bit (BIT w : Nat) : Nat := w &&& (1 <<< (31 - BIT))

end Word


/-! ### Word bit extractor (src/ppc32/src/word.rs)

Rust bit numbering: bit 0 is the most significant bit of the 32-bit word.
-/

/-! ### Instruction grammar (src/ppc32/src/instruction.rs) -/

/-- Rust `AddressingMode`. -/
inductive AddressingMode where
  | absolute
  | relative
deriving DecidableEq, Repr

/-- Rust `AddressingMode::from_absolute_bit`. -/
def AddressingMode.from_absolute_bit (bit : Nat) : AddressingMode :=
  if bit ≠ 0 then .absolute else .relative

/-- Rust `BranchOptions` (variant order as declared in the source). -/
inductive BranchOptions where
  | decCTRBranchIfFalse
  | branchIfFalse
  | decCTRBranchIfTrue
  | branchIfTrue
  | decCTRBranchIfNotZero
  | decCTRBranchIfZero
  | branchAlways
deriving DecidableEq, Repr

/-- The body of `BranchOptions::from_word` on the extracted 5-bit BO field
`mask`; `none` models the `assert!((mask & 0b10100) == 0b10100)` failure. -/
def BranchOptions.fromBO (mask : Nat) : Option BranchOptions :=
  if mask &&& 0b11110 = 0b00010 ∨ mask &&& 0b11110 = 0 then
    some .decCTRBranchIfFalse
  else if mask &&& 0b11100 = 0b00100 then
    some .branchIfFalse
  else if mask &&& 0b11110 = 0b01000 ∨ mask &&& 0b11110 = 0b01010 then
    some .decCTRBranchIfTrue
  else if mask &&& 0b11100 = 0b01100 then
    some .branchIfTrue
  else if mask &&& 0b10110 = 0b10000 then
    some .decCTRBranchIfNotZero
  else if mask &&& 0b10110 = 0b10010 then
    some .decCTRBranchIfZero
  else if mask &&& 0b10100 = 0b10100 then
    some .branchAlways
  else
    none

/-- Rust `BranchOptions::from_word`: `let mask = word.u8::<6, 10>()` then the
priority chain. -/
def BranchOptions.from_word (w : Nat) : Option BranchOptions :=
  BranchOptions.fromBO (Word.u8 6 10 w)

/-- Rust `SpecialPurposeRegister`. -/
inductive SpecialPurposeRegister where
  | xer
  | lr
  | ctr
  | other (code : Nat)
deriving DecidableEq, Repr

/-- Rust `SpecialPurposeRegister::from_word`: combine bits `<11,15>` and `<16,20>`
as `low | (high << 5)` (a `u16` shift, hence the `% 2^16`). -/
def SpecialPurposeRegister.from_word (w : Nat) : SpecialPurposeRegister :=
  match Word.u16 11 15 w ||| ((Word.u16 16 20 w <<< 5) % 2 ^ 16) with
  | 1 => .xer
  | 8 => .lr
  | 9 => .ctr
  | c => .other c

/-- Rust `TimeBaseRegister`; `none` in `from_word` models the
`panic!("invalid TBR register code: ...")`. -/
inductive TimeBaseRegister where
  | tbu
  | tbl
deriving DecidableEq, Repr

/-- Rust `TimeBaseRegister::from_word`. -/
def TimeBaseRegister.from_word (w : Nat) : Option TimeBaseRegister :=
  match Word.u16 11 15 w ||| ((Word.u16 16 20 w <<< 5) % 2 ^ 16) with
  | 268 => some .tbu
  | 269 => some .tbl
  | _ => none

/-- Rust `Instruction` (all variants of the `define_instructions!` table, in
declaration order; `Register` operands are modelled as `Nat`, signed
immediates as `Int`). -/
inductive Instruction where
  | branch (target : Int) (mode : AddressingMode) (link : Bool)
  | rlwnm (source dest rot_bits : Nat) (mask_start mask_end : Nat) (rc : Bool)
  | rlwinm (source dest : Nat) (rot_bits : Nat) (mask_start mask_end : Nat) (rc : Bool)
  | addis (dest : Nat) (add : Option Nat) (imm : Int)
  | addi (dest source : Nat) (imm : Int)
  | ori (source dest : Nat) (imm : Nat)
  | cmpli (source : Nat) (imm : Nat) (crf : Nat) (l : Bool)
  | cmpi (source : Nat) (imm : Nat) (crf : Nat) (l : Bool)
  | cmpl (source_a source_b crf : Nat) (l : Bool)
  | cmp (source_a source_b crf : Nat) (l : Bool)
  | bc (bo : BranchOptions) (bi : Int) (target : Int) (mode : AddressingMode) (link : Bool)
  | bclr (bo : BranchOptions) (bi : Int) (link : Bool)
  | stwu (source dest : Nat) (imm : Int)
  | stwux (source dest index : Nat)
  | subf (dest source_b source_a : Nat) (oe rc : Bool)
  | mfspr (dest : Nat) (spr : SpecialPurposeRegister)
  | mtspr (source : Nat) (spr : SpecialPurposeRegister)
  | mfmsr (dest : Nat)
  | mtmsr (source : Nat)
  | or (source dest or_with : Nat) (rc : Bool)
  | and (source1 source2 dest : Nat)
  | stw (source dest : Nat) (imm : Int)
  | stmw (source dest : Nat) (imm : Int)
  | lwz (dest source : Nat) (imm : Int)
  | lwzu (dest source : Nat) (imm : Int)
  | isync
  | hwsync
  | oris (source dest : Nat) (imm : Nat)
  | mtfsb1 (crf : Nat) (rc : Bool)
  | lmw (source dest : Nat) (imm : Int)
  | mftb (dest : Nat) (tbr : TimeBaseRegister)
  | lhz (dest source : Nat) (imm : Int)
  | lbz (dest source : Nat) (imm : Int)
  | neg (dest source : Nat) (rc oe : Bool)
  | crxor (crb_dest crb_a crb_b : Nat)
  | add (dest source_a source_b : Nat) (oe rc : Bool)
deriving DecidableEq, Repr

namespace Instruction

/-- Rust `parse_branch`.  `target = word.i32::<6,29>() << 2`; the field value is
below `2^24`, so the `i32` shift is exact multiplication by 4. -/
def parse_branch (w : Nat) : Option Instruction :=
  some (.branch (Word.i32 6 29 w * 4)
    (AddressingMode.from_absolute_bit (Word.bit 30 w)) (Word.bit 31 w ≠ 0))

/-- Rust `parse_rlwnm`. -/
def parse_rlwnm (w : Nat) : Option Instruction :=
  some (.rlwnm (Word.u8 6 10 w) (Word.u8 11 15 w) (Word.u8 16 20 w)
    (Word.u8 21 25 w) (Word.u8 26 30 w) (Word.bit 31 w ≠ 0))

/-- Rust `parse_rlwinm`. -/
def parse_rlwinm (w : Nat) : Option Instruction :=
  some (.rlwinm (Word.u8 6 10 w) (Word.u8 11 15 w) (Word.u8 16 20 w)
    (Word.u8 21 25 w) (Word.u8 26 30 w) (Word.bit 31 w ≠ 0))

/-- Rust `parse_addis`: `add = Some(word.u8::<11,15>()).filter(|&r| r != 0)`. -/
def parse_addis (w : Nat) : Option Instruction :=
  some (.addis (Word.u8 6 10 w)
    (if Word.u8 11 15 w ≠ 0 then some (Word.u8 11 15 w) else none)
    (Word.i16 16 31 w))

/-- Rust `parse_addi`. -/
def parse_addi (w : Nat) : Option Instruction :=
  some (.addi (Word.u8 6 10 w) (Word.u8 11 15 w) (Word.i16 16 31 w))

/-- Rust `parse_ori`. -/
def parse_ori (w : Nat) : Option Instruction :=
  some (.ori (Word.u8 6 10 w) (Word.u8 11 15 w) (Word.u16 16 31 w))

/-- Rust `parse_cmpli`. -/
def parse_cmpli (w : Nat) : Option Instruction :=
  some (.cmpli (Word.u8 11 15 w) (Word.u16 16 31 w) (Word.u8 6 8 w)
    (Word.bit 10 w ≠ 0))

/-- Rust `parse_cmpi`. -/
def parse_cmpi (w : Nat) : Option Instruction :=
  some (.cmpi (Word.u8 11 15 w) (Word.u16 16 31 w) (Word.u8 6 8 w)
    (Word.bit 10 w ≠ 0))

/-- Rust `parse_cmpl`. -/
def parse_cmpl (w : Nat) : Option Instruction :=
  some (.cmpl (Word.u8 11 15 w) (Word.u8 16 20 w) (Word.u8 6 8 w)
    (Word.bit 10 w ≠ 0))

/-- Rust `parse_cmp`. -/
def parse_cmp (w : Nat) : Option Instruction :=
  some (.cmp (Word.u8 11 15 w) (Word.u8 16 20 w) (Word.u8 6 8 w)
    (Word.bit 10 w ≠ 0))

/-- Rust `parse_bc`; the `bo` field decode can fail the BO assertion. -/
def parse_bc (w : Nat) : Option Instruction :=
  (BranchOptions.from_word w).bind fun bo =>
    some (.bc bo (Word.i8 11 15 w) (Word.i32 16 29 w * 4)
      (AddressingMode.from_absolute_bit (Word.bit 30 w)) (Word.bit 31 w ≠ 0))

/-- Rust `parse_bclr`. -/
def parse_bclr (w : Nat) : Option Instruction :=
  (BranchOptions.from_word w).bind fun bo =>
    some (.bclr bo (Word.i8 11 15 w) (Word.bit 31 w ≠ 0))

/-- Rust `parse_stwu`. -/
def parse_stwu (w : Nat) : Option Instruction :=
  some (.stwu (Word.u8 6 10 w) (Word.u8 11 15 w) (Word.i16 16 31 w))

/-- Rust `parse_stwux`. -/
def parse_stwux (w : Nat) : Option Instruction :=
  some (.stwux (Word.u8 6 10 w) (Word.u8 11 15 w) (Word.u8 16 20 w))

/-- Rust `parse_subf`. -/
def parse_subf (w : Nat) : Option Instruction :=
  some (.subf (Word.u8 6 10 w) (Word.u8 11 15 w) (Word.u8 16 20 w)
    (Word.bit 21 w ≠ 0) (Word.bit 31 w ≠ 0))

/-- Rust `parse_mfspr`. -/
def parse_mfspr (w : Nat) : Option Instruction :=
  some (.mfspr (Word.u8 6 10 w) (SpecialPurposeRegister.from_word w))

/-- Rust `parse_mtspr`. -/
def parse_mtspr (w : Nat) : Option Instruction :=
  some (.mtspr (Word.u8 6 10 w) (SpecialPurposeRegister.from_word w))

/-- Rust `parse_mfmsr`. -/
def parse_mfmsr (w : Nat) : Option Instruction :=
  some (.mfmsr (Word.u8 6 10 w))

/-- Rust `parse_mtmsr`. -/
def parse_mtmsr (w : Nat) : Option Instruction :=
  some (.mtmsr (Word.u8 6 10 w))

/-- Rust `parse_or`. -/
def parse_or (w : Nat) : Option Instruction :=
  some (.or (Word.u8 6 10 w) (Word.u8 11 15 w) (Word.u8 16 20 w)
    (Word.bit 31 w ≠ 0))

/-- Rust `parse_and`. -/
def parse_and (w : Nat) : Option Instruction :=
  some (.and (Word.u8 6 10 w) (Word.u8 16 20 w) (Word.u8 11 15 w))

/-- Rust `parse_stw`. -/
def parse_stw (w : Nat) : Option Instruction :=
  some (.stw (Word.u8 6 10 w) (Word.u8 11 15 w) (Word.i16 16 31 w))

/-- Rust `parse_stmw`. -/
def parse_stmw (w : Nat) : Option Instruction :=
  some (.stmw (Word.u8 6 10 w) (Word.u8 11 15 w) (Word.i16 16 31 w))

/-- Rust `parse_lwz`. -/
def parse_lwz (w : Nat) : Option Instruction :=
  some (.lwz (Word.u8 6 10 w) (Word.u8 11 15 w) (Word.i16 16 31 w))

/-- Rust `parse_lwzu`. -/
def parse_lwzu (w : Nat) : Option Instruction :=
  some (.lwzu (Word.u8 6 10 w) (Word.u8 11 15 w) (Word.i16 16 31 w))

/-- Rust `parse_isync`. -/
def parse_isync (_w : Nat) : Option Instruction := some .isync

/-- Rust `parse_hwsync`. -/
def parse_hwsync (_w : Nat) : Option Instruction := some .hwsync

/-- Rust `parse_oris`. -/
def parse_oris (w : Nat) : Option Instruction :=
  some (.oris (Word.u8 6 10 w) (Word.u8 11 15 w) (Word.u16 16 31 w))

/-- Rust `parse_mtfsb1`. -/
def parse_mtfsb1 (w : Nat) : Option Instruction :=
  some (.mtfsb1 (Word.u8 6 10 w) (Word.bit 31 w ≠ 0))

/-- Rust `parse_lmw`. -/
def parse_lmw (w : Nat) : Option Instruction :=
  some (.lmw (Word.u8 6 10 w) (Word.u8 11 15 w) (Word.i16 16 31 w))

/-- Rust `parse_mftb`; the `tbr` field decode panics on an invalid TBR code. -/
def parse_mftb (w : Nat) : Option Instruction :=
  (TimeBaseRegister.from_word w).bind fun tbr =>
    some (.mftb (Word.u8 6 10 w) tbr)

/-- Rust `parse_lhz`. -/
def parse_lhz (w : Nat) : Option Instruction :=
  some (.lhz (Word.u8 6 10 w) (Word.u8 11 15 w) (Word.i16 16 31 w))

/-- Rust `parse_lbz`. -/
def parse_lbz (w : Nat) : Option Instruction :=
  some (.lbz (Word.u8 6 10 w) (Word.u8 11 15 w) (Word.i16 16 31 w))

/-- Rust `parse_neg` (field order `rc` before `oe`, as declared). -/
def parse_neg (w : Nat) : Option Instruction :=
  some (.neg (Word.u8 6 10 w) (Word.u8 11 15 w) (Word.bit 31 w ≠ 0)
    (Word.bit 21 w ≠ 0))

/-- Rust `parse_crxor`. -/
def parse_crxor (w : Nat) : Option Instruction :=
  some (.crxor (Word.u8 6 10 w) (Word.u8 11 15 w) (Word.u8 16 20 w))

/-- Rust `parse_add`. -/
def parse_add (w : Nat) : Option Instruction :=
  some (.add (Word.u8 6 10 w) (Word.u8 11 15 w) (Word.u8 16 20 w)
    (Word.bit 21 w ≠ 0) (Word.bit 31 w ≠ 0))

/-- Rust `Instruction::branch_target` relies on `compute_branch_target`:
absolute mode reinterprets the `i32` target as `u32`; relative mode is
`base.checked_add_signed(target).unwrap()` (`none` models the unwrap
panic on overflow). -/
def compute_branch_target (base : Nat) (mode : AddressingMode) (target : Int) :
    Option Nat :=
  match mode with
  | .absolute => some (target % (2 ^ 32 : Int)).toNat
  | .relative =>
      let r := (base : Int) + target
      if 0 ≤ r ∧ r < 2 ^ 32 then some r.toNat else none

end Instruction

/-! ### The raw decoder (src/ppc32/src/decoder.rs) -/

/-- Rust `DecodeError`. -/
inductive DecodeError where
  | unhandledOpcode (word : Nat) (offset : Nat)
  | unexpectedEof (offset : Nat)
deriving DecidableEq, Repr

instance {ε α : Type} [DecidableEq ε] [DecidableEq α] :
    DecidableEq (Except ε α) := fun a b =>
  match a, b with
  | .ok x, .ok y =>
      if h : x = y then isTrue (by rw [h]) else
        isFalse (fun hc => h (Except.ok.inj hc))
  | .error x, .error y =>
      if h : x = y then isTrue (by rw [h]) else
        isFalse (fun hc => h (Except.error.inj hc))
  | .ok _, .error _ => isFalse (fun hc => Except.noConfusion hc)
  | .error _, .ok _ => isFalse (fun hc => Except.noConfusion hc)

/-- Rust `Decoder::decode_from_word`: the generated `match (word.opcode(),
word.xform_opcode())` with one arm per variant in declaration order, here
written as the equivalent ordered test chain (the match arms are mutually
exclusive except against the final error arm).  `offset` is the decoder's
offset AFTER the 4-byte read; the error arm reports `offset - 4`.
`.ok none` models a panic inside a field parser. -/
def decode_from_word (offset w : Nat) : Except DecodeError (Option Instruction) :=
  if Word.opcode w = 0b010010 then .ok (Instruction.parse_branch w)
  else if Word.opcode w = 0b010111 then .ok (Instruction.parse_rlwnm w)
  else if Word.opcode w = 0b10101 then .ok (Instruction.parse_rlwinm w)
  else if Word.opcode w = 0b001111 then .ok (Instruction.parse_addis w)
  else if Word.opcode w = 0b001110 then .ok (Instruction.parse_addi w)
  else if Word.opcode w = 0b011000 then .ok (Instruction.parse_ori w)
  else if Word.opcode w = 0b001010 then .ok (Instruction.parse_cmpli w)
  else if Word.opcode w = 0b001011 then .ok (Instruction.parse_cmpi w)
  else if Word.opcode w = 0b011111 ∧ Word.xform_opcode w = 0b100000 then .ok (Instruction.parse_cmpl w)
  else if Word.opcode w = 0b011111 ∧ Word.xform_opcode w = 0 then .ok (Instruction.parse_cmp w)
  else if Word.opcode w = 0b010000 then .ok (Instruction.parse_bc w)
  else if Word.opcode w = 0b010011 ∧ Word.xform_opcode w = 0b010000 then .ok (Instruction.parse_bclr w)
  else if Word.opcode w = 0b100101 then .ok (Instruction.parse_stwu w)
  else if Word.opcode w = 0b011111 ∧ Word.xform_opcode w = 0b10110111 then .ok (Instruction.parse_stwux w)
  else if Word.opcode w = 0b011111 ∧ Word.xform_opcode w = 0b101000 then .ok (Instruction.parse_subf w)
  else if Word.opcode w = 0b011111 ∧ Word.xform_opcode w = 0b101010011 then .ok (Instruction.parse_mfspr w)
  else if Word.opcode w = 0b011111 ∧ Word.xform_opcode w = 0b111010011 then .ok (Instruction.parse_mtspr w)
  else if Word.opcode w = 0b011111 ∧ Word.xform_opcode w = 0b1010011 then .ok (Instruction.parse_mfmsr w)
  else if Word.opcode w = 0b011111 ∧ Word.xform_opcode w = 0b10010010 then .ok (Instruction.parse_mtmsr w)
  else if Word.opcode w = 0b011111 ∧ Word.xform_opcode w = 0b110111100 then .ok (Instruction.parse_or w)
  else if Word.opcode w = 0b011111 ∧ Word.xform_opcode w = 0b11100 then .ok (Instruction.parse_and w)
  else if Word.opcode w = 0b100100 then .ok (Instruction.parse_stw w)
  else if Word.opcode w = 0b101111 then .ok (Instruction.parse_stmw w)
  else if Word.opcode w = 0b100000 then .ok (Instruction.parse_lwz w)
  else if Word.opcode w = 0b100001 then .ok (Instruction.parse_lwzu w)
  else if Word.opcode w = 0b10011 ∧ Word.xform_opcode w = 0b10010110 then .ok (Instruction.parse_isync w)
  else if Word.opcode w = 0b011111 ∧ Word.xform_opcode w = 0b1001010110 then .ok (Instruction.parse_hwsync w)
  else if Word.opcode w = 0b11001 then .ok (Instruction.parse_oris w)
  else if Word.opcode w = 0b111111 ∧ Word.xform_opcode w = 0b100110 then .ok (Instruction.parse_mtfsb1 w)
  else if Word.opcode w = 0b101110 then .ok (Instruction.parse_lmw w)
  else if Word.opcode w = 0b011111 ∧ Word.xform_opcode w = 0b101110011 then .ok (Instruction.parse_mftb w)
  else if Word.opcode w = 0b101000 then .ok (Instruction.parse_lhz w)
  else if Word.opcode w = 0b100010 then .ok (Instruction.parse_lbz w)
  else if Word.opcode w = 0b011111 ∧ Word.xform_opcode w = 0b1101000 then .ok (Instruction.parse_neg w)
  else if Word.opcode w = 0b010011 ∧ Word.xform_opcode w = 0b11000001 then .ok (Instruction.parse_crxor w)
  else if Word.opcode w = 0b011111 ∧ Word.xform_opcode w = 0b100001010 then .ok (Instruction.parse_add w)
  else .error (.unhandledOpcode w (offset - 4))

/-- Rust `Decoder { input, offset }`; `input` is the remaining byte slice. -/
structure DecoderState where
  input : List Nat
  offset : Nat
deriving DecidableEq, Repr

/-- The big-endian word formed by four bytes (`u32::from_be_bytes`). -/
def beWord (b0 b1 b2 b3 : Nat) : Nat :=
  b0 * 2 ^ 24 + b1 * 2 ^ 16 + b2 * 2 ^ 8 + b3

/-- Rust `Decoder::decode_instruction`: read a 4-byte big-endian word
(`split_at_checked(4)`, advancing `offset` by 4) and dispatch; with fewer
than 4 bytes remaining return `UnexpectedEof { offset }` and leave the
state unchanged. -/
def decode_instruction (s : DecoderState) :
    Except DecodeError (Option Instruction) × DecoderState :=
  match s.input with
  | b0 :: b1 :: b2 :: b3 :: rest =>
      let s2 : DecoderState := ⟨rest, s.offset + 4⟩
      (decode_from_word s2.offset (beWord b0 b1 b2 b3), s2)
  | _ => (.error (.unexpectedEof s.offset), s)

/-- The set of primary opcodes that have a primary-only decode rule
(claim C7's "decode rule" reading of the table). -/
def primaryOps : List Nat :=
  [18, 23, 21, 15, 14, 24, 10, 11, 16, 37, 36, 47, 32, 33, 25, 46, 40, 34]

/-- The `(primary, extended)` pairs that have a two-level decode rule. -/
def pairOps : List (Nat × Nat) :=
  [(31, 32), (31, 0), (19, 16), (31, 183), (31, 40), (31, 339), (31, 467),
   (31, 83), (31, 146), (31, 444), (31, 28), (19, 150), (31, 598), (63, 38),
   (31, 371), (31, 104), (19, 193), (31, 266)]

/-- A word matches some decode rule iff its primary opcode has a
primary-only rule or its `(primary, extended)` pair has a two-level rule. -/
def isMatched (w : Nat) : Prop :=
  Word.opcode w ∈ primaryOps ∨ (Word.opcode w, Word.xform_opcode w) ∈ pairOps

instance (w : Nat) : Decidable (isMatched w) := by unfold isMatched; infer_instance

/-- The seven priority cases of the spec (§4.2), in the spec's order:
the first case whose mask test the BO field satisfies. -/
def boPrioritySpec (mask : Nat) : Option BranchOptions :=
  if mask &&& 0b11110 = 0b00000 ∨ mask &&& 0b11110 = 0b00010 then
    some .decCTRBranchIfFalse
  else if mask &&& 0b11100 = 0b00100 then some .branchIfFalse
  else if mask &&& 0b11110 = 0b01000 ∨ mask &&& 0b11110 = 0b01010 then
    some .decCTRBranchIfTrue
  else if mask &&& 0b11100 = 0b01100 then some .branchIfTrue
  else if mask &&& 0b10110 = 0b10000 then some .decCTRBranchIfNotZero
  else if mask &&& 0b10110 = 0b10010 then some .decCTRBranchIfZero
  else if mask &&& 0b10100 = 0b10100 then some .branchAlways
  else none

/-! ### DOL container reader (src/dol/src/lib.rs) -/

/-- Rust `SectionInfo`. -/
structure SectionInfo where
  file_offset : Nat
  load_offset : Nat
  size : Nat
deriving DecidableEq, Repr

/-- Rust `Dol(Vec<u8>)`. -/
structure Dol where
  bytes : List Nat
deriving DecidableEq, Repr

/-- Rust `Dol::new`: reject inputs shorter than 0xFF bytes. -/
def Dol.new (bytes : List Nat) : Option Dol :=
  if bytes.length < 0xFF then none else some ⟨bytes⟩

/-- Rust `Dol::u32`: read 4 big-endian bytes at `off`; `none` models the
panicking slice `self.0[off..][..4]` when out of bounds. -/
def Dol.u32At (d : Dol) (off : Nat) : Option Nat :=
  if off + 4 ≤ d.bytes.length then
    some (beWord (d.bytes.getD off 0) (d.bytes.getD (off + 1) 0)
      (d.bytes.getD (off + 2) 0) (d.bytes.getD (off + 3) 0))
  else none

/-- Rust `Dol::section`: `assert!(section <= 17)` then three header reads
(file offset at `0 + 4*i`, load address at `0x48 + 4*i`, size at
`0x90 + 4*i`). -/
def Dol.section (d : Dol) (i : Nat) : Option SectionInfo :=
  if i ≤ 17 then
    (d.u32At (0 + i * 4)).bind fun fo =>
      (d.u32At (0x48 + i * 4)).bind fun lo =>
        (d.u32At (0x90 + i * 4)).bind fun sz =>
          some ⟨fo, lo, sz⟩
  else none

/-- Rust `Dol::entrypoint` (header offset 0xE0). -/
def Dol.entrypoint (d : Dol) : Option Nat := d.u32At 0xE0

/-- Rust `Dol::bss_address` (header offset 0xD8). -/
def Dol.bss_address (d : Dol) : Option Nat := d.u32At 0xD8

/-- Rust `Dol::bss_size` (header offset 0xDC). -/
def Dol.bss_size (d : Dol) : Option Nat := d.u32At 0xDC

/-! ### Symbolic value lattice (src/cli/src/value.rs) -/

/-- Rust `IntType` (variant order as declared, used by the derived `Ord`). -/
inductive IntType where
  | i8
  | i16
  | i32
  | u8
  | u16
  | u32
  | f32
  | ptr
deriving DecidableEq, Repr

/-- Variant index of `IntType`, realizing the derived `Ord`. -/
def IntType.disc : IntType → Nat
  | .i8 => 0
  | .i16 => 1
  | .i32 => 2
  | .u8 => 3
  | .u16 => 4
  | .u32 => 5
  | .f32 => 6
  | .ptr => 7

/-- Rust `VInt { val: u32, ty: IntType }`. -/
structure VInt where
  val : Nat
  ty : IntType
deriving DecidableEq, Repr

/-- Sign-extend the low `bits` bits of `val` into a 32-bit value
(the `as iN as u32` cast chain of `VInt::new`). -/
def signExtTo32 (bits val : Nat) : Nat :=
  if val % 2 ^ bits < 2 ^ (bits - 1) then val % 2 ^ bits
  else val % 2 ^ bits + (2 ^ 32 - 2 ^ bits)

/-- Rust `VInt::new`: truncate the payload to the type's width (signed types are
stored sign-extended into the 32-bit payload). -/
def VInt.new (val : Nat) (ty : IntType) : VInt :=
  match ty with
  | .i8 => ⟨signExtTo32 8 val, ty⟩
  | .i16 => ⟨signExtTo32 16 val, ty⟩
  | .i32 => ⟨val % 2 ^ 32, ty⟩
  | .u8 => ⟨val % 2 ^ 8, ty⟩
  | .u16 => ⟨val % 2 ^ 16, ty⟩
  | .u32 | .ptr | .f32 => ⟨val, ty⟩

/-- Rust `VInt::add`.  The match arms in source order: `(float, float)` folds via
f32 arithmetic on the bit patterns (`fadd` is the uninterpreted bit-level
f32 addition), `(float, _) | (_, float)` yields `None`, and `(int, int)` —
ANY pair of integer types — folds by wrapping `u32` addition, keeping the
LEFT operand's type. -/
def VInt.add (fadd : Nat → Nat → Nat) (a b : VInt) : Option VInt :=
  if a.ty = .f32 ∧ b.ty = .f32 then some (VInt.new (fadd a.val b.val) a.ty)
  else if a.ty = .f32 ∨ b.ty = .f32 then none
  else some (VInt.new ((a.val + b.val) % 2 ^ 32) a.ty)

/-- Rust `ValueInner` / `Value` (variant order as declared; the arena indirection
of `&'bump Value` is dropped — `PartialEq`/`Ord` on references compare the
pointed-to values, so the tree-shaped inductive has the same equality and
order). -/
inductive Value where
  | Uninitialized
  | CallerStack
  | Param (p : Nat)
  | Int (i : VInt)
  | Add (l r : Value)
  | BitOr (l r : Value)
  | OneIfNegative (v : Value)
  | OneIfPositive (v : Value)
  | OneIfZero (v : Value)
  | CallResult (addr : Nat)
  | ReturnAddress
  | Any
deriving DecidableEq, Repr

/-- Variant index of `ValueInner`, realizing the derived `Ord`'s
discriminant comparison. -/
def Value.disc : Value → Nat
  | .Uninitialized => 0
  | .CallerStack => 1
  | .Param _ => 2
  | .Int _ => 3
  | .Add _ _ => 4
  | .BitOr _ _ => 5
  | .OneIfNegative _ => 6
  | .OneIfPositive _ => 7
  | .OneIfZero _ => 8
  | .CallResult _ => 9
  | .ReturnAddress => 10
  | .Any => 11

/-- Derived `Ord` on `VInt`: field `val` then field `ty`. -/
def VInt.cmp (a b : VInt) : Ordering :=
  (compare a.val b.val).then (compare a.ty.disc b.ty.disc)

/-- Derived `Ord` on `ValueInner`: discriminant first, then fields
lexicographically, recursing through references. -/
def Value.cmp : Value → Value → Ordering
  | .Param a, .Param b => compare a b
  | .Int a, .Int b => VInt.cmp a b
  | .Add l1 r1, .Add l2 r2 => (Value.cmp l1 l2).then (Value.cmp r1 r2)
  | .BitOr l1 r1, .BitOr l2 r2 => (Value.cmp l1 l2).then (Value.cmp r1 r2)
  | .OneIfNegative a, .OneIfNegative b => Value.cmp a b
  | .OneIfPositive a, .OneIfPositive b => Value.cmp a b
  | .OneIfZero a, .OneIfZero b => Value.cmp a b
  | .CallResult a, .CallResult b => compare a b
  | a, b => compare a.disc b.disc

/-- Rust `Value::join`: equal values stay, `Uninitialized` is sticky, any other
conflict widens to `Any`. -/
def Value.join (a b : Value) : Value :=
  if a = b then a
  else if a = .Uninitialized ∨ b = .Uninitialized then .Uninitialized
  else .Any

/-- Rust `Value::is_initialized`. -/
def Value.is_initialized : Value → Bool
  | .Uninitialized => false
  | _ => true

/-- Rust `Value::int`: raw constructor, NO width normalization. -/
def Value.int (imm : Nat) (int_type : IntType) : Value := .Int ⟨imm, int_type⟩

/-- Rust `Value::u32`. -/
def Value.u32 (imm : Nat) : Value := Value.int imm .u32

/-- Rust `Value::i16`: `imm as u32` sign-extends the 16-bit argument. -/
def Value.i16 (imm : ℤ) : Value :=
  Value.int (imm % (2 ^ 32 : ℤ)).toNat .i16

/-- Rust `Value::parameter`. -/
def Value.parameter (p : Nat) : Value := .Param p

/-- Rust `Value::call_result`. -/
def Value.call_result (addr : Nat) : Value := .CallResult addr

/-- One-level flattening of `Add` operands (the `canon_iter` of
`Value::add`). -/
def Value.flat1 (v : Value) : List Value :=
  match v with
  | .Add l r => [l, r]
  | _ => [v]

/-- The constant-folding loop of `Value::add`: the first `Int` leaf seeds
`sum`; later `Int` leaves fold into it via `VInt::add` or, failing that,
are pushed as ordinary terms; non-`Int` leaves are pushed in order. -/
def Value.addLoop (fadd : Nat → Nat → Nat) :
    List Value → Option VInt → List Value → Option VInt × List Value
  | [], sum, terms => (sum, terms)
  | .Int imm :: rest, sum, terms =>
      match sum with
      | some s =>
          match VInt.add fadd s imm with
          | some s2 => Value.addLoop fadd rest (some s2) terms
          | none => Value.addLoop fadd rest sum (terms ++ [.Int imm])
      | none => Value.addLoop fadd rest (some imm) terms
  | v :: rest, sum, terms => Value.addLoop fadd rest sum (terms ++ [v])

/-- Rust `sum.filter(|v| v.val != 0)`. -/
def optConst (sum : Option VInt) : Option VInt :=
  match sum with
  | some s => if s.val = 0 then none else some s
  | none => none

/-- Rust `Value::add`: flatten one level of `Add`, fold constants, and reassemble
the canonical shape for 0–4 non-constant terms plus the optional nonzero
constant (as the last leaf).  `none` models the panics: `sum.unwrap()` with
no constant and no terms, the `ArrayVec<_, 4>` overflow on a fifth term,
and the `unreachable!()` arm. -/
def Value.add (fadd : Nat → Nat → Nat) (a b : Value) : Option Value :=
  match Value.addLoop fadd (a.flat1 ++ b.flat1) none [] with
  | (sum, []) => sum.map Value.Int
  | (sum, [single]) =>
      match sum with
      | some s => some (if s.val = 0 then single else .Add single (.Int s))
      | none => none
  | (sum, [x, y]) =>
      match optConst sum with
      | some s => some (.Add (.Add x y) (.Int s))
      | none => some (.Add x y)
  | (sum, [x, y, z]) =>
      match optConst sum with
      | some s => some (.Add (.Add x y) (.Add z (.Int s)))
      | none => some (.Add (.Add x y) z)
  | (sum, [x, y, z, v]) =>
      match optConst sum with
      | some s => some (.Add (.Add x y) (.Add z (.Add v (.Int s))))
      | none => some (.Add (.Add x y) (.Add z v))
  | _ => none

/-- Rust `Value::bit_or`: fold two `Int`s of equal type (the type-equality
`assert_eq!` failure is `none`); otherwise canonicalize the operand order
by the total order (the recursive swapped call is inlined: a hypothetical
`b > a` after `a > b` would loop forever, modelled as `none`). -/
def Value.bit_or (a b : Value) : Option Value :=
  match a, b with
  | .Int l, .Int r =>
      if l.ty = r.ty then some (Value.int (l.val ||| r.val) l.ty) else none
  | _, _ =>
      if Value.cmp a b = .gt then
        if Value.cmp b a = .gt then none else some (.BitOr b a)
      else some (.BitOr a b)

/-- Rust `Value::one_if_negative`: fold on `Int` (signed reinterpretation of the
stored bits), else wrap. -/
def Value.one_if_negative (v : Value) : Value :=
  match v with
  | .Int imm => Value.u32 (if Word.toSigned 32 imm.val < 0 then 1 else 0)
  | _ => .OneIfNegative v

/-- Rust `Value::one_if_positive`. -/
def Value.one_if_positive (v : Value) : Value :=
  match v with
  | .Int imm => Value.u32 (if 0 < Word.toSigned 32 imm.val then 1 else 0)
  | _ => .OneIfPositive v

/-- Rust `Value::one_if_zero` (tests the raw `u32` payload). -/
def Value.one_if_zero (v : Value) : Value :=
  match v with
  | .Int imm => Value.u32 (if imm.val = 0 then 1 else 0)
  | _ => .OneIfZero v

/-- Rust `true` iff the value is neither an `Add` node nor an `Int` constant
(the values on which `Value::add` neither flattens nor folds). -/
def Value.isPlain : Value → Bool
  | .Add _ _ => false
  | .Int _ => false
  | _ => true

/-! ### Abstract machine state and transfer function (src/cli/src/disasm.rs)

`Gpr` identifiers are `Nat` (the in-tree decoder produces 5-bit fields, so
only indices below 32 occur); the 32-slot GPR array and the 8-slot CR array
are modelled as total functions so that out-of-range indices are inert. -/

/-- Rust `RegisterState`. -/
structure RegisterState where
  value_read : Bool
  value : Value
deriving DecidableEq, Repr

/-- Rust `RegisterState::join`: `value_read` OR-ed, `value` joined. -/
def RegisterState.join (a b : RegisterState) : RegisterState :=
  ⟨a.value_read || b.value_read, a.value.join b.value⟩

/-- Rust `ConditionRegisterFieldBits`. -/
structure ConditionRegisterFieldBits where
  lt : Value
  gt : Value
  eq : Value
  so : Value
deriving DecidableEq, Repr

/-- Rust `XerValues`. -/
structure XerValues where
  so : Value
  ov : Value
  ca : Value
deriving DecidableEq, Repr

/-- Rust `SprValues`. -/
structure SprValues where
  lr : Value
  ctr : Value
  xer : XerValues
  msr : Value
  cr : Nat → ConditionRegisterFieldBits

/-- Rust `BlockState`; `memory` is the `BTreeMap<Value, Value>` as a partial
map. -/
structure BlockState where
  gprs : Nat → RegisterState
  sprs : SprValues
  memory : Value → Option Value
  diverging : Bool

/-- The all-`Uninitialized` `SprValues` (built both by
`clobber_caller_saved` and, with `lr` overridden, by `Default`). -/
def SprValues.allUninit : SprValues :=
  { lr := .Uninitialized
    ctr := .Uninitialized
    xer := ⟨.Uninitialized, .Uninitialized, .Uninitialized⟩
    msr := .Uninitialized
    cr := fun _ => ⟨.Uninitialized, .Uninitialized, .Uninitialized, .Uninitialized⟩ }

/-- Rust `BlockState::default` (the function-entry state): GPR1 = CallerStack,
GPR3..=GPR10 = Param(0)..Param(7), LR = ReturnAddress, everything else
Uninitialized, memory empty, not diverging. -/
def BlockState.initial : BlockState :=
  { gprs := fun i =>
      if i = 1 then ⟨false, .CallerStack⟩
      else if 3 ≤ i ∧ i ≤ 10 then ⟨false, .Param (i - 3)⟩
      else ⟨false, .Uninitialized⟩
    sprs := { SprValues.allUninit with lr := .ReturnAddress }
    memory := fun _ => none
    diverging := false }

/-- Rust `BlockState::join`: `assert!(!(self.diverging && other.diverging))`
(failure = `none`); one diverging side yields the other; with NEITHER side
diverging the struct expression computes the elementwise GPR join and then
hits `sprs: todo!()` and `memory: todo!()` — an unconditional panic,
modelled `none`. -/
def BlockState.join (a b : BlockState) : Option BlockState :=
  if a.diverging ∧ b.diverging then none
  else if a.diverging then some b
  else if b.diverging then some a
  else none

/-- Rust `BlockState::set_gpr_value` (leaves `value_read` untouched). -/
def BlockState.set_gpr_value (s : BlockState) (g : Nat) (v : Value) : BlockState :=
  { s with gprs := fun i => if i = g then ⟨(s.gprs i).value_read, v⟩ else s.gprs i }

/-- Rust `BlockState::set_gpr_read` (leaves `value` untouched). -/
def BlockState.set_gpr_read (s : BlockState) (g : Nat) (r : Bool) : BlockState :=
  { s with gprs := fun i => if i = g then ⟨r, (s.gprs i).value⟩ else s.gprs i }

/-- Rust `BlockState::spr`: LR/CTR supported; XER and Other are `todo!()`
(`none`).  (The analyzer's `Spr` enum also has an `Msr` arm mapped to
`sprs.msr`, but the in-tree `SpecialPurposeRegister` cannot produce it.) -/
def BlockState.sprValue (s : BlockState) (spr : SpecialPurposeRegister) : Option Value :=
  match spr with
  | .xer => none
  | .lr => some s.sprs.lr
  | .ctr => some s.sprs.ctr
  | .other _ => none

/-- Rust `BlockState::set_spr` (same supported arms). -/
def BlockState.set_spr (s : BlockState) (spr : SpecialPurposeRegister)
    (v : Value) : Option BlockState :=
  match spr with
  | .xer => none
  | .lr => some { s with sprs := { s.sprs with lr := v } }
  | .ctr => some { s with sprs := { s.sprs with ctr := v } }
  | .other _ => none

/-- Rust `BlockState::mem_store` (`BTreeMap::insert`). -/
def BlockState.mem_store (s : BlockState) (address v : Value) : BlockState :=
  { s with memory := fun k => if k = address then some v else s.memory k }

/-- Rust `BlockState::mem_load`; `none` models the
`panic!("memory read from uninitialized address")`. -/
def BlockState.mem_load (s : BlockState) (address : Value) : Option Value :=
  s.memory address

/-- Rust `BlockState::update_cr_field`: eq/gt/lt from the `one_if_*` helpers,
`so` copied from `xer.so`. -/
def BlockState.update_cr_field (s : BlockState) (field : Nat) (v : Value) :
    BlockState :=
  { s with sprs := { s.sprs with cr := fun j =>
      (if j = field then
        ⟨v.one_if_negative, v.one_if_positive, v.one_if_zero, s.sprs.xer.so⟩
      else s.sprs.cr j) } }

/-- Rust `BlockState::clobber_caller_saved`: GPRs 0..=12 except 1 reset to
Uninitialized with `value_read = false`; every SPR becomes Uninitialized. -/
def BlockState.clobber_caller_saved (s : BlockState) : BlockState :=
  { s with
    gprs := fun i =>
      if i ≤ 12 ∧ ¬(i = 1) then ⟨false, .Uninitialized⟩ else s.gprs i
    sprs := SprValues.allUninit }

/-- Modelled from the spec: `Instruction::for_each_read_gpr` lives in the
newer `ppc32` crate and is not present under src/ (only its caller
`Analysis::apply_effect` is).  Per §4.7 the read set is the instruction's
source/base register operands; `Branch`, `Bc` and `Bclr` carry no GPR
operands at all (visible from their field lists), so their read set is
empty. -/
def Instruction.readGprs : Instruction → List Nat
  | .stwu source dest _ => [source, dest]
  | .stw source dest _ => [source, dest]
  | .or source _ or_with _ => [source, or_with]
  | .addi _ source _ => [source]
  | .lwz _ source _ => [source]
  | .mtspr source _ => [source]
  | _ => []

/-- The `data.for_each_read_gpr(|gpr| state.set_gpr_read(gpr, true))` pass
that precedes the per-mnemonic handler. -/
def BlockState.markReads (s : BlockState) (inst : Instruction) : BlockState :=
  inst.readGprs.foldl (fun st g => st.set_gpr_read g true) s

/-- Rust `Analysis::apply_effect` for the instruction at index `idx`
(`inst_addr = fn_address + 4 * idx`).  `none` models the hard analysis
failures: `todo!()` on unmodelled mnemonics and SPRs, the uninitialized
memory read panic, the branch-target overflow unwrap, and the panics
inside `Value` canonicalization. -/
def Analysis.apply_effect (fadd : Nat → Nat → Nat) (fn_address idx : Nat)
    (inst : Instruction) (state : BlockState) : Option BlockState :=
  let inst_addr := fn_address + 4 * idx
  let s := state.markReads inst
  match inst with
  | .stwu source dest imm =>
      (Value.add fadd (s.gprs dest).value (Value.i16 imm)).map fun ea =>
        (s.set_gpr_value dest ea).mem_store ea (s.gprs source).value
  | .or source dest or_with rc =>
      if source = or_with then
        let src_val := (s.gprs source).value
        let s2 := s.set_gpr_value dest src_val
        some (if rc then s2.update_cr_field 0 src_val else s2)
      else
        (Value.bit_or (s.gprs source).value (s.gprs or_with).value).map
          fun result =>
            let s2 := s.set_gpr_value dest result
            if rc then s2.update_cr_field 0 result else s2
  | .mfspr dest spr =>
      (s.sprValue spr).map fun v => s.set_gpr_value dest v
  | .addi dest source imm =>
      if source = 0 then some (s.set_gpr_value dest (Value.i16 imm))
      else
        (Value.add fadd (s.gprs source).value (Value.i16 imm)).map fun r =>
          s.set_gpr_value dest r
  | .stw source dest imm =>
      (Value.add fadd (s.gprs dest).value (Value.i16 imm)).map fun ea =>
        s.mem_store ea (s.gprs source).value
  | .branch target mode link =>
      let s2 := s.clobber_caller_saved
      if link then
        (Instruction.compute_branch_target inst_addr mode target).map fun t =>
          s2.set_gpr_value 3 (Value.call_result t)
      else some s2
  | .bc _ _ target mode link =>
      let s2 := s.clobber_caller_saved
      if link then
        (Instruction.compute_branch_target inst_addr mode target).map fun t =>
          s2.set_gpr_value 3 (Value.call_result t)
      else some s2
  | .lwz dest source imm =>
      (if source = 0 then some (Value.i16 imm)
       else Value.add fadd (s.gprs source).value (Value.i16 imm)).bind fun ea =>
        (s.mem_load ea).map fun v => s.set_gpr_value dest v
  | .mtspr source spr => s.set_spr spr (s.gprs source).value
  | .bclr _ _ _ => some { s with diverging := true }
  | _ => none

/-! ### Function-window decoder (spec-modelled, §4.4) -/

/-- Rust `AddrRangeEnd` (src/cli/src/args.rs). -/
inductive AddrRangeEnd where
  | unbounded
  | bounded (e : Nat)
deriving DecidableEq, Repr

/-- Rust `AddrRange(start, end)` (src/cli/src/args.rs). -/
structure AddrRange where
  start : Nat
  stop : AddrRangeEnd
deriving DecidableEq, Repr

/-- Modelled from the spec: the function-window decoder — the `cli` crate's
`decoder::{Address, Decoder}` with `next_instruction_with_offset`,
`conditional_ranges` and `reached_end` — is not present under src/ (only
its callers `disasm_asm`/`disasm_c` are).  State per §4.4. -/
structure WindowDecoder where
  dec : DecoderState
  range : AddrRange
  conditional_ranges : List (Nat × Nat)
  reached_end : Bool
deriving DecidableEq, Repr

/-- One outcome of `next_instruction_with_offset`: a decoded instruction
with its address, "no more", a propagated decode error, or a panic. -/
inductive WStep where
  | panic
  | fail (e : DecodeError)
  | noMore
  | inst (addr : Nat) (i : Instruction)
deriving DecidableEq, Repr

/-- Rust `addr` lies outside every recorded conditional interval `[lo, hi)`. -/
def outsideAll (addr : Nat) (ranges : List (Nat × Nat)) : Bool :=
  ranges.all fun r => decide (¬(r.1 ≤ addr ∧ addr < r.2))

/-- An unconditional return `Bclr { bo: BranchAlways, link: false }` or an
unconditional `Branch { link: false }`. -/
def isUncondEnd : Instruction → Bool
  | .bclr .branchAlways _ false => true
  | .branch _ _ false => true
  | _ => false

/-- Modelled from the spec: `next_instruction_with_offset` per §4.4.
`instr_addr = range.start + offset-before-read`; a bounded range ends at
its bound; `reached_end` ends the stream; decode errors propagate; a
conditional `Bc{link:false, bo ≠ BranchAlways}` records the interval
`[instr_addr, target)`; an unconditional return/branch at an address
outside every recorded interval, under an unbounded range, sets
`reached_end`. -/
def WindowDecoder.next (d : WindowDecoder) : WStep × WindowDecoder :=
  let instr_addr := d.range.start + d.dec.offset
  let pastEnd := match d.range.stop with
    | .bounded e => decide (e ≤ instr_addr)
    | .unbounded => false
  if pastEnd then (.noMore, d)
  else if d.reached_end then (.noMore, d)
  else
    match decode_instruction d.dec with
    | (.error e, dec2) => (.fail e, { d with dec := dec2 })
    | (.ok none, dec2) => (.panic, { d with dec := dec2 })
    | (.ok (some i), dec2) =>
        let d2 : WindowDecoder := { d with dec := dec2 }
        match i with
        | .bc bo _ target mode false =>
            if bo ≠ .branchAlways then
              match Instruction.compute_branch_target instr_addr mode target with
              | some t =>
                  (.inst instr_addr i,
                    { d2 with conditional_ranges :=
                        d2.conditional_ranges ++ [(instr_addr, t)] })
              | none => (.panic, d2)
            else (.inst instr_addr i, d2)
        | _ =>
            if isUncondEnd i ∧ d.range.stop = .unbounded ∧
                outsideAll instr_addr d.conditional_ranges then
              (.inst instr_addr i, { d2 with reached_end := true })
            else (.inst instr_addr i, d2)

/-- The 4-instruction demo window of spec scenario 4:
`[addi r3,r0,1; stw r3,0(r1); blr; <garbage>]`. -/
def demoBytes : List Nat :=
  [0x38, 0x60, 0x00, 0x01, 0x90, 0x61, 0x00, 0x00,
   0x4E, 0x80, 0x00, 0x20, 0x00, 0x00, 0x00, 0x00]

/-- The demo window after `n` decoded instructions, with the given
`reached_end` flag; unbounded range starting at address 0x1000, no
recorded conditional intervals. -/
def demoWindow (n : Nat) (re : Bool) : WindowDecoder :=
  ⟨⟨demoBytes.drop (4 * n), 4 * n⟩, ⟨0x1000, .unbounded⟩, [], re⟩

end Doldisasm

namespace Doldisasm

namespace Word

theorem mask_eq (FROM TO : Nat) (hle : FROM ≤ TO) (hto : TO ≤ 31) :
    (((2 ^ 32 - 1) >>> (FROM + (31 - TO))) <<< (31 - TO)) % 2 ^ 32
      = (2 ^ (TO - FROM + 1) - 1) <<< (31 - TO) := by
  apply Nat.eq_of_testBit_eq
  intro i
  simp only [Nat.testBit_mod_two_pow, Nat.testBit_shiftLeft, Nat.testBit_shiftRight,
    Nat.testBit_two_pow_sub_one]
  by_cases h1 : 31 - TO ≤ i
  · by_cases h2 : i - (31 - TO) < TO - FROM + 1
    · have : FROM + (31 - TO) + (i - (31 - TO)) < 32 := by omega
      have hi : i < 32 := by omega
      simp [h1, h2, this, hi]
    · have : ¬ (FROM + (31 - TO) + (i - (31 - TO)) < 32) := by omega
      simp [h1, h2, this]
  · simp [h1]

theorem u32_eq (FROM TO w : Nat) (hle : FROM ≤ TO) (hto : TO ≤ 31) :
    u32 FROM TO w = (w >>> (31 - TO)) % 2 ^ (TO - FROM + 1) := by
  unfold u32
  rw [mask_eq FROM TO hle hto]
  apply Nat.eq_of_testBit_eq
  intro i
  simp only [Nat.testBit_shiftRight, Nat.testBit_and, Nat.testBit_shiftLeft,
    Nat.testBit_two_pow_sub_one, Nat.testBit_mod_two_pow]
  have h1 : 31 - TO ≤ 31 - TO + i := Nat.le_add_right _ _
  have h2 : 31 - TO + i - (31 - TO) = i := by omega
  simp [h1, h2, Bool.and_comm]

theorem u32_lt (FROM TO w : Nat) (hle : FROM ≤ TO) (hto : TO ≤ 31) :
    u32 FROM TO w < 2 ^ (TO - FROM + 1) := by
  rw [u32_eq FROM TO w hle hto]
  exact Nat.mod_lt _ (Nat.pos_pow_of_pos _ (by norm_num))

end Word

/-- The BO field `u8::<6,10>` is a 5-bit value. -/
theorem u8_6_10_lt (w : Nat) : Word.u8 6 10 w < 32 := by
  have h := Word.u32_lt 6 10 w (by decide) (by decide)
  norm_num at h
  unfold Word.u8
  omega

/-- The terminal assertion of `BranchOptions::from_word` never fires:
every 5-bit BO value hits one of the seven cases. -/
theorem BranchOptions.fromBO_isSome (m : Nat) (h : m < 32) :
    (BranchOptions.fromBO m).isSome := by
  have key : ∀ m : Fin 32, (BranchOptions.fromBO m.val).isSome := by decide
  exact key ⟨m, h⟩

theorem BranchOptions.from_word_isSome (w : Nat) :
    (BranchOptions.from_word w).isSome :=
  BranchOptions.fromBO_isSome _ (u8_6_10_lt w)

theorem decode_from_word_unmatched (off w : Nat) (h : ¬ isMatched w) :
    decode_from_word off w = .error (.unhandledOpcode w (off - 4)) := by
  simp only [isMatched, primaryOps, pairOps, List.mem_cons, List.not_mem_nil,
    or_false, not_or, Prod.mk.injEq] at h
  obtain ⟨⟨q18, q23, q21, q15, q14, q24, q10, q11, q16, q37, q36, q47, q32,
    q33, q25, q46, q40, q34⟩, p1, p2, p3, p4, p5, p6, p7, p8, p9, p10, p11,
    p12, p13, p14, p15, p16, p17, p18⟩ := h
  unfold decode_from_word
  rw [if_neg q18, if_neg q23, if_neg q21, if_neg q15, if_neg q14, if_neg q24,
    if_neg q10, if_neg q11, if_neg p1, if_neg p2, if_neg q16, if_neg p3,
    if_neg q37, if_neg p4, if_neg p5, if_neg p6, if_neg p7, if_neg p8,
    if_neg p9, if_neg p10, if_neg p11, if_neg q36, if_neg q47, if_neg q32,
    if_neg q33, if_neg p12, if_neg p13, if_neg q25, if_neg p14, if_neg q46,
    if_neg p15, if_neg q40, if_neg q34, if_neg p16, if_neg p17, if_neg p18]

theorem decode_from_word_matched (off w : Nat) (h : isMatched w) :
    ∃ r, decode_from_word off w = .ok r := by
  simp only [isMatched, primaryOps, pairOps, List.mem_cons, List.not_mem_nil,
    or_false, Prod.mk.injEq] at h
  rcases h with (h|h|h|h|h|h|h|h|h|h|h|h|h|h|h|h|h|h) |
    (⟨h1, h2⟩|⟨h1, h2⟩|⟨h1, h2⟩|⟨h1, h2⟩|⟨h1, h2⟩|⟨h1, h2⟩|⟨h1, h2⟩|⟨h1, h2⟩|
     ⟨h1, h2⟩|⟨h1, h2⟩|⟨h1, h2⟩|⟨h1, h2⟩|⟨h1, h2⟩|⟨h1, h2⟩|⟨h1, h2⟩|⟨h1, h2⟩|
     ⟨h1, h2⟩|⟨h1, h2⟩) <;>
    simp [decode_from_word, *]

/-- The only field parser that can panic on a rule-matched word is
`parse_mftb` (with an invalid TBR code); the BO assertion never fires. -/
theorem decode_from_word_none_iff (off w : Nat) :
    decode_from_word off w = .ok none ↔
      (Word.opcode w = 31 ∧ Word.xform_opcode w = 371 ∧
        TimeBaseRegister.from_word w = none) := by
  obtain ⟨bo, hbo⟩ := Option.isSome_iff_exists.mp (BranchOptions.from_word_isSome w)
  by_cases hm : isMatched w
  · simp only [isMatched, primaryOps, pairOps, List.mem_cons, List.not_mem_nil,
      or_false, Prod.mk.injEq] at hm
    rcases hm with (h|h|h|h|h|h|h|h|h|h|h|h|h|h|h|h|h|h) |
      (⟨h1, h2⟩|⟨h1, h2⟩|⟨h1, h2⟩|⟨h1, h2⟩|⟨h1, h2⟩|⟨h1, h2⟩|⟨h1, h2⟩|⟨h1, h2⟩|
       ⟨h1, h2⟩|⟨h1, h2⟩|⟨h1, h2⟩|⟨h1, h2⟩|⟨h1, h2⟩|⟨h1, h2⟩|⟨h1, h2⟩|⟨h1, h2⟩|
       ⟨h1, h2⟩|⟨h1, h2⟩) <;>
      simp [decode_from_word, *, Instruction.parse_branch, Instruction.parse_rlwnm,
        Instruction.parse_rlwinm, Instruction.parse_addis, Instruction.parse_addi,
        Instruction.parse_ori, Instruction.parse_cmpli, Instruction.parse_cmpi,
        Instruction.parse_cmpl, Instruction.parse_cmp, Instruction.parse_bc,
        Instruction.parse_bclr, Instruction.parse_stwu, Instruction.parse_stwux,
        Instruction.parse_subf, Instruction.parse_mfspr, Instruction.parse_mtspr,
        Instruction.parse_mfmsr, Instruction.parse_mtmsr, Instruction.parse_or,
        Instruction.parse_and, Instruction.parse_stw, Instruction.parse_stmw,
        Instruction.parse_lwz, Instruction.parse_lwzu, Instruction.parse_isync,
        Instruction.parse_hwsync, Instruction.parse_oris, Instruction.parse_mtfsb1,
        Instruction.parse_lmw, Instruction.parse_mftb, Instruction.parse_lhz,
        Instruction.parse_lbz, Instruction.parse_neg, Instruction.parse_crxor,
        Instruction.parse_add]
    · cases htbr : TimeBaseRegister.from_word w <;> simp [htbr]
  · rw [decode_from_word_unmatched off w hm]
    constructor
    · intro hcontra
      exact absurd hcontra (by simp)
    · rintro ⟨h31, h371, -⟩
      exact absurd (Or.inr (by simp [pairOps, h31, h371])) hm

theorem ordering_swap_then (a b : Ordering) : (a.then b).swap = a.swap.then b.swap := by
  cases a <;> rfl

theorem ordering_then_eq_eq (a b : Ordering) :
    a.then b = .eq ↔ a = .eq ∧ b = .eq := by
  cases a <;> simp [Ordering.then]

theorem VInt.cmp_swap_eq (a b : VInt) : VInt.cmp b a = (VInt.cmp a b).swap := by
  unfold VInt.cmp
  rw [ordering_swap_then, Nat.compare_swap, Nat.compare_swap]

theorem IntType.disc_eq_iff (a b : IntType) : a.disc = b.disc ↔ a = b := by
  cases a <;> cases b <;> decide

theorem VInt.cmp_eq_iff_eq (a b : VInt) : VInt.cmp a b = .eq ↔ a = b := by
  obtain ⟨av, aty⟩ := a
  obtain ⟨bv, bty⟩ := b
  simp [VInt.cmp, ordering_then_eq_eq, Nat.compare_eq_eq, IntType.disc_eq_iff]

theorem Value.cmp_swap (a : Value) : ∀ b, Value.cmp b a = (Value.cmp a b).swap := by
  induction a with
  | Param p =>
      intro b; cases b <;> simp [Value.cmp, Value.disc, Nat.compare_swap]
  | Int i =>
      intro b; cases b <;>
        simp [Value.cmp, Value.disc, Nat.compare_swap, VInt.cmp_swap_eq i]
  | Add l r ihl ihr =>
      intro b; cases b <;>
        simp [Value.cmp, Value.disc, Nat.compare_swap, ordering_swap_then, ihl, ihr]
  | BitOr l r ihl ihr =>
      intro b; cases b <;>
        simp [Value.cmp, Value.disc, Nat.compare_swap, ordering_swap_then, ihl, ihr]
  | OneIfNegative v ih =>
      intro b; cases b <;> simp [Value.cmp, Value.disc, Nat.compare_swap, ih]
  | OneIfPositive v ih =>
      intro b; cases b <;> simp [Value.cmp, Value.disc, Nat.compare_swap, ih]
  | OneIfZero v ih =>
      intro b; cases b <;> simp [Value.cmp, Value.disc, Nat.compare_swap, ih]
  | CallResult n =>
      intro b; cases b <;> simp [Value.cmp, Value.disc, Nat.compare_swap]
  | Uninitialized =>
      intro b; cases b <;> simp [Value.cmp, Value.disc, Nat.compare_swap]
  | CallerStack =>
      intro b; cases b <;> simp [Value.cmp, Value.disc, Nat.compare_swap]
  | ReturnAddress =>
      intro b; cases b <;> simp [Value.cmp, Value.disc, Nat.compare_swap]
  | Any =>
      intro b; cases b <;> simp [Value.cmp, Value.disc, Nat.compare_swap]

theorem Value.cmp_eq_iff (a : Value) : ∀ b, Value.cmp a b = .eq ↔ a = b := by
  induction a with
  | Param p =>
      intro b; cases b <;> simp [Value.cmp, Value.disc, Nat.compare_eq_eq]
  | Int i =>
      intro b; cases b <;>
        simp [Value.cmp, Value.disc, Nat.compare_eq_eq, VInt.cmp_eq_iff_eq]
  | Add l r ihl ihr =>
      intro b; cases b <;>
        simp [Value.cmp, Value.disc, Nat.compare_eq_eq, ordering_then_eq_eq, ihl, ihr]
  | BitOr l r ihl ihr =>
      intro b; cases b <;>
        simp [Value.cmp, Value.disc, Nat.compare_eq_eq, ordering_then_eq_eq, ihl, ihr]
  | OneIfNegative v ih =>
      intro b; cases b <;> simp [Value.cmp, Value.disc, Nat.compare_eq_eq, ih]
  | OneIfPositive v ih =>
      intro b; cases b <;> simp [Value.cmp, Value.disc, Nat.compare_eq_eq, ih]
  | OneIfZero v ih =>
      intro b; cases b <;> simp [Value.cmp, Value.disc, Nat.compare_eq_eq, ih]
  | CallResult n =>
      intro b; cases b <;> simp [Value.cmp, Value.disc, Nat.compare_eq_eq]
  | Uninitialized =>
      intro b; cases b <;> simp [Value.cmp, Value.disc, Nat.compare_eq_eq]
  | CallerStack =>
      intro b; cases b <;> simp [Value.cmp, Value.disc, Nat.compare_eq_eq]
  | ReturnAddress =>
      intro b; cases b <;> simp [Value.cmp, Value.disc, Nat.compare_eq_eq]
  | Any =>
      intro b; cases b <;> simp [Value.cmp, Value.disc, Nat.compare_eq_eq]

/-- On operand pairs that are not both `Int`, `bit_or` reduces to the
order-canonicalizing branch. -/
theorem Value.bit_or_of_not_int (a b : Value)
    (h : ∀ l r, ¬(a = .Int l ∧ b = .Int r)) :
    Value.bit_or a b =
      if Value.cmp a b = .gt then
        if Value.cmp b a = .gt then none else some (.BitOr b a)
      else some (.BitOr a b) := by
  cases a <;> cases b <;> first
    | rfl
    | exact absurd ⟨rfl, rfl⟩ (h _ _)

theorem Value.flat1_plain (v : Value) (h : v.isPlain) : v.flat1 = [v] := by
  cases v <;> simp_all [Value.flat1, Value.isPlain]

theorem Value.addLoop_plain (fadd : Nat → Nat → Nat) (v : Value)
    (h : v.isPlain) (rest : List Value) (sum : Option VInt) (terms : List Value) :
    Value.addLoop fadd (v :: rest) sum terms =
      Value.addLoop fadd rest sum (terms ++ [v]) := by
  cases v <;> simp_all [Value.addLoop, Value.isPlain]

/-- Rust `Value::add` on two plain operands (no flattening, no folding): the
terms keep their encounter order. -/
theorem Value.add_plain (fadd : Nat → Nat → Nat) (a b : Value)
    (ha : a.isPlain) (hb : b.isPlain) :
    Value.add fadd a b = some (.Add a b) := by
  unfold Value.add
  rw [Value.flat1_plain a ha, Value.flat1_plain b hb]
  rw [show ([a] ++ [b] : List Value) = a :: [b] from rfl]
  rw [Value.addLoop_plain fadd a ha, Value.addLoop_plain fadd b hb]
  rfl

/-- Rust `Value::add` of a plain operand with a two-term `Add` of plain
operands: one-level flattening produces three terms. -/
theorem Value.add_plain_add (fadd : Nat → Nat → Nat) (a b c : Value)
    (ha : a.isPlain) (hb : b.isPlain) (hc : c.isPlain) :
    Value.add fadd a (.Add b c) = some (.Add (.Add a b) c) := by
  unfold Value.add
  rw [Value.flat1_plain a ha]
  rw [show ([a] ++ (Value.Add b c).flat1 : List Value) = a :: b :: [c] from rfl]
  rw [Value.addLoop_plain fadd a ha, Value.addLoop_plain fadd b hb,
    Value.addLoop_plain fadd c hc]
  rfl

/-- Symmetric variant: `Add` node on the left. -/
theorem Value.add_add_plain (fadd : Nat → Nat → Nat) (a b c : Value)
    (ha : a.isPlain) (hb : b.isPlain) (hc : c.isPlain) :
    Value.add fadd (.Add a b) c = some (.Add (.Add a b) c) := by
  unfold Value.add
  rw [Value.flat1_plain c hc]
  rw [show ((Value.Add a b).flat1 ++ [c] : List Value) = a :: b :: [c] from rfl]
  rw [Value.addLoop_plain fadd a ha, Value.addLoop_plain fadd b hb,
    Value.addLoop_plain fadd c hc]
  rfl


end Doldisasm

/-- C2 (amended): `Value::add` is NOT commutative — non-constant terms keep
their encounter order — but `add(a, add(b, c)) == add(add(a, b), c)`
(both equal to `Add(Add(a, b), c)`) holds whenever `a`, `b`, `c` are
values that are neither `Add` nodes nor `Int` constants. -/
theorem c2_add_assoc_on_plain (fadd : Nat → Nat → Nat)
    (a b c : Doldisasm.Value)
    (ha : a.isPlain) (hb : b.isPlain) (hc : c.isPlain) :
    (Doldisasm.Value.add fadd b c).bind (fun t => Doldisasm.Value.add fadd a t) =
      (Doldisasm.Value.add fadd a b).bind (fun t => Doldisasm.Value.add fadd t c) ∧
    (Doldisasm.Value.add fadd b c).bind (fun t => Doldisasm.Value.add fadd a t) =
      some (.Add (.Add a b) c) := by
  rw [Doldisasm.Value.add_plain fadd b c hb hc,
    Doldisasm.Value.add_plain fadd a b ha hb]
  simp only [Option.some_bind]
  rw [Doldisasm.Value.add_plain_add fadd a b c ha hb hc,
    Doldisasm.Value.add_add_plain fadd a b c ha hb hc]
  exact ⟨rfl, rfl⟩

/-- Witness for C2 at `a = Param(0)`, `b = Param(1)`, `c = Param(2)`. -/
theorem c2_add_assoc_on_plain_witness :
    (Doldisasm.Value.add (fun _ _ => 0) (.Param 1) (.Param 2)).bind
        (fun t => Doldisasm.Value.add (fun _ _ => 0) (.Param 0) t) =
      (Doldisasm.Value.add (fun _ _ => 0) (.Param 0) (.Param 1)).bind
        (fun t => Doldisasm.Value.add (fun _ _ => 0) t (.Param 2)) ∧
    (Doldisasm.Value.add (fun _ _ => 0) (.Param 1) (.Param 2)).bind
        (fun t => Doldisasm.Value.add (fun _ _ => 0) (.Param 0) t) =
      some (.Add (.Add (.Param 0) (.Param 1)) (.Param 2)) :=
  c2_add_assoc_on_plain (fun _ _ => 0) (.Param 0) (.Param 1) (.Param 2)
    (by decide) (by decide) (by decide)

/-- Counterexample for C2 as stated: `add` is not commutative —
`add(Param(0), Param(1))` and `add(Param(1), Param(0))` build structurally
different trees (the non-constant terms keep their encounter order, they
are not sorted). -/
theorem c2_add_assoc_on_plain_cx :
    Doldisasm.Value.add (fun _ _ => 0) (.Param 0) (.Param 1) =
      some (.Add (.Param 0) (.Param 1)) ∧
    Doldisasm.Value.add (fun _ _ => 0) (.Param 1) (.Param 0) =
      some (.Add (.Param 1) (.Param 0)) ∧
    Doldisasm.Value.add (fun _ _ => 0) (.Param 0) (.Param 1) ≠
      Doldisasm.Value.add (fun _ _ => 0) (.Param 1) (.Param 0) := by
  refine ⟨rfl, rfl, ?_⟩
  decide

/-- C3 (amended): `VInt::add` folds ANY pair of integer-typed operands
(same or different integer types) to `Some` of the wrapping 32-bit sum
re-normalized to the LEFT operand's type width; one float and one integer
operand yield `None`. -/
theorem c3_vint_add (fadd : Nat → Nat → Nat) (a b : Doldisasm.VInt) :
    (a.ty ≠ .f32 → b.ty ≠ .f32 →
      Doldisasm.VInt.add fadd a b =
        some (Doldisasm.VInt.new ((a.val + b.val) % 2 ^ 32) a.ty)) ∧
    (a.ty = .f32 → b.ty ≠ .f32 → Doldisasm.VInt.add fadd a b = none) ∧
    (a.ty ≠ .f32 → b.ty = .f32 → Doldisasm.VInt.add fadd a b = none) := by
  refine ⟨fun h1 h2 => ?_, fun h1 h2 => ?_, fun h1 h2 => ?_⟩ <;>
    simp [Doldisasm.VInt.add, h1, h2]

/-- Witness for C3: `1u32 + 2u32 = 3u32` and `F32 + I8` refuses to fold. -/
theorem c3_vint_add_witness :
    Doldisasm.VInt.add (fun _ _ => 0) ⟨1, .u32⟩ ⟨2, .u32⟩ =
      some (Doldisasm.VInt.new ((1 + 2) % 2 ^ 32) .u32) ∧
    Doldisasm.VInt.add (fun _ _ => 0) ⟨1, .f32⟩ ⟨2, .i8⟩ = none :=
  ⟨(c3_vint_add (fun _ _ => 0) ⟨1, .u32⟩ ⟨2, .u32⟩).1 (by decide) (by decide),
   (c3_vint_add (fun _ _ => 0) ⟨1, .f32⟩ ⟨2, .i8⟩).2.1 (by decide) (by decide)⟩

/-- Counterexample for C3 as stated: two operands of DIFFERENT integer
types do not return `None`; `I8 1 + U16 2` folds to `Some(I8 3)` (the
`(int, int)` match arm accepts any integer pair and keeps the left type). -/
theorem c3_vint_add_cx :
    Doldisasm.VInt.add (fun _ _ => 0) ⟨1, .i8⟩ ⟨2, .u16⟩ =
      some ⟨3, .i8⟩ ∧
    Doldisasm.VInt.add (fun _ _ => 0) ⟨1, .i8⟩ ⟨2, .u16⟩ ≠ none := by
  refine ⟨by decide, ?_⟩
  intro h
  rw [show Doldisasm.VInt.add (fun _ _ => 0) ⟨1, .i8⟩ ⟨2, .u16⟩ =
    some ⟨3, .i8⟩ from by decide] at h
  exact Option.noConfusion h

/-- C4 (amended): `bit_or` folds two `Int`s of equal type to the `Int` of
the bitwise or; two `Int`s of DIFFERENT types fail the `assert_eq!` (they
do not build a `BitOr` node); in EVERY other case — any operand pair that
is not two `Int`s — it returns `some` of the `BitOr` node of exactly the
two operands, with the greater one (by the total order) second (last
conjunct), so a returned `BitOr`'s operands are never out of order (third
conjunct); and `bit_or(a, b) == bit_or(b, a)`. -/
theorem c4_bit_or_canonical :
    (∀ l r : Doldisasm.VInt, l.ty = r.ty →
      Doldisasm.Value.bit_or (.Int l) (.Int r) =
        some (Doldisasm.Value.int (l.val ||| r.val) l.ty)) ∧
    (∀ l r : Doldisasm.VInt, l.ty ≠ r.ty →
      Doldisasm.Value.bit_or (.Int l) (.Int r) = none) ∧
    (∀ a b x y : Doldisasm.Value,
      Doldisasm.Value.bit_or a b = some (.BitOr x y) →
        Doldisasm.Value.cmp x y ≠ .gt) ∧
    (∀ a b : Doldisasm.Value,
      Doldisasm.Value.bit_or a b = Doldisasm.Value.bit_or b a) ∧
    (∀ a b : Doldisasm.Value,
      (∀ l r : Doldisasm.VInt, ¬(a = .Int l ∧ b = .Int r)) →
      Doldisasm.Value.bit_or a b =
        some (if Doldisasm.Value.cmp a b = .gt then .BitOr b a
          else .BitOr a b)) := by
  refine ⟨fun l r h => by simp [Doldisasm.Value.bit_or, h],
    fun l r h => by simp [Doldisasm.Value.bit_or, h], ?_, ?_, ?_⟩
  · intro a b x y hsome
    by_cases hint : ∃ l r, a = Doldisasm.Value.Int l ∧ b = Doldisasm.Value.Int r
    · obtain ⟨l, r, rfl, rfl⟩ := hint
      by_cases hty : l.ty = r.ty <;>
        simp [Doldisasm.Value.bit_or, hty, Doldisasm.Value.int] at hsome
    · have h' : ∀ l r, ¬(a = Doldisasm.Value.Int l ∧ b = Doldisasm.Value.Int r) :=
        fun l r hc => hint ⟨l, r, hc⟩
      rw [Doldisasm.Value.bit_or_of_not_int a b h'] at hsome
      by_cases hab : Doldisasm.Value.cmp a b = .gt
      · rw [if_pos hab] at hsome
        have hba : Doldisasm.Value.cmp b a = Ordering.gt → False := by
          intro hba
          rw [Doldisasm.Value.cmp_swap a b, hab] at hba
          exact Ordering.noConfusion hba
        rw [if_neg hba] at hsome
        obtain ⟨h1, h2⟩ := Doldisasm.Value.BitOr.inj (Option.some.inj hsome)
        subst h1; subst h2
        exact fun hxy => hba hxy
      · rw [if_neg hab] at hsome
        obtain ⟨h1, h2⟩ := Doldisasm.Value.BitOr.inj (Option.some.inj hsome)
        subst h1; subst h2
        exact hab
  · intro a b
    by_cases hint : ∃ l r, a = Doldisasm.Value.Int l ∧ b = Doldisasm.Value.Int r
    · obtain ⟨l, r, rfl, rfl⟩ := hint
      have unf : ∀ p q : Doldisasm.VInt,
          Doldisasm.Value.bit_or (.Int p) (.Int q) =
            if p.ty = q.ty then some (Doldisasm.Value.int (p.val ||| q.val) p.ty)
            else none := fun _ _ => rfl
      by_cases hty : l.ty = r.ty
      · rw [unf, unf, if_pos hty, if_pos hty.symm, Nat.lor_comm, hty]
      · rw [unf, unf, if_neg hty, if_neg (Ne.symm hty)]
    · have h' : ∀ l r, ¬(a = Doldisasm.Value.Int l ∧ b = Doldisasm.Value.Int r) :=
        fun l r hc => hint ⟨l, r, hc⟩
      have h'' : ∀ l r, ¬(b = Doldisasm.Value.Int l ∧ a = Doldisasm.Value.Int r) :=
        fun l r ⟨h1, h2⟩ => hint ⟨r, l, h2, h1⟩
      rw [Doldisasm.Value.bit_or_of_not_int a b h',
        Doldisasm.Value.bit_or_of_not_int b a h'']
      rcases hc : Doldisasm.Value.cmp a b with _ | _ | _
      · have hba : Doldisasm.Value.cmp b a = .gt := by
          rw [Doldisasm.Value.cmp_swap a b, hc]; rfl
        simp [hc, hba]
      · have hab : a = b := (Doldisasm.Value.cmp_eq_iff a b).mp hc
        subst hab
        simp [hc]
      · have hba : Doldisasm.Value.cmp b a = .lt := by
          rw [Doldisasm.Value.cmp_swap a b, hc]; rfl
        simp [hc, hba]
  · intro a b h
    rw [Doldisasm.Value.bit_or_of_not_int a b h]
    by_cases hab : Doldisasm.Value.cmp a b = .gt
    · have hba : ¬ Doldisasm.Value.cmp b a = .gt := by
        rw [Doldisasm.Value.cmp_swap a b, hab]
        decide
      rw [if_pos hab, if_neg hba, if_pos hab]
    · rw [if_neg hab, if_neg hab]

/-- Witness for C4: equal-type fold `1u32 | 2u32 = 3u32`, and a non-`Int`
pair really returns a `BitOr` node with the operands reordered —
`bit_or(Param(1), Param(0)) = BitOr(Param(0), Param(1))`. -/
theorem c4_bit_or_canonical_witness :
    Doldisasm.Value.bit_or (.Int ⟨1, .u32⟩) (.Int ⟨2, .u32⟩) =
      some (Doldisasm.Value.int (1 ||| 2) .u32) ∧
    Doldisasm.Value.bit_or (.Param 1) (.Param 0) =
      some (.BitOr (.Param 0) (.Param 1)) := by
  refine ⟨c4_bit_or_canonical.1 ⟨1, .u32⟩ ⟨2, .u32⟩ rfl, ?_⟩
  have h := c4_bit_or_canonical.2.2.2.2 (.Param 1) (.Param 0)
    (fun l r hc => Doldisasm.Value.noConfusion hc.1)
  rw [h]
  rfl

/-- Counterexample for C4 as stated: two `Int` operands of different types
do NOT return a `BitOr` node — the `assert_eq!(left.ty, right.ty)` fails
(modelled `none`). -/
theorem c4_bit_or_canonical_cx :
    Doldisasm.Value.bit_or (.Int ⟨1, .u32⟩) (.Int ⟨2, .u16⟩) = none ∧
    ∀ x y : Doldisasm.Value,
      Doldisasm.Value.bit_or (.Int ⟨1, .u32⟩) (.Int ⟨2, .u16⟩) ≠
        some (.BitOr x y) := by
  refine ⟨rfl, fun x y h => ?_⟩
  rw [show Doldisasm.Value.bit_or (.Int ⟨1, .u32⟩) (.Int ⟨2, .u16⟩) = none
    from rfl] at h
  exact Option.noConfusion h

/-- C1: the diverging-related behaviour of `BlockState::join` matches the
claim — one diverging side yields the other, two diverging sides fail the
assertion — but joining two NON-diverging states does not return the
field-wise joined state: the `sprs`/`memory` fields of the result are
`todo!()`, so the join of two default entry states panics (`none`). -/
theorem c1_block_state_join_todo :
    Doldisasm.BlockState.join Doldisasm.BlockState.initial
      Doldisasm.BlockState.initial = none ∧
    Doldisasm.BlockState.join
      { Doldisasm.BlockState.initial with diverging := true }
      Doldisasm.BlockState.initial = some Doldisasm.BlockState.initial ∧
    Doldisasm.BlockState.join Doldisasm.BlockState.initial
      { Doldisasm.BlockState.initial with diverging := true } =
      some Doldisasm.BlockState.initial ∧
    Doldisasm.BlockState.join
      { Doldisasm.BlockState.initial with diverging := true }
      { Doldisasm.BlockState.initial with diverging := true } = none :=
  ⟨rfl, rfl, rfl, rfl⟩

/-- C8: after the transfer function processes a `Branch` or `Bc`, GPR0 and
GPR2..=GPR12 hold Uninitialized with `value_read = false` (except that with
the link bit set GPR3 is subsequently assigned the `CallResult` of the
computed branch target), GPR1 and GPR13..=GPR31 are unchanged, and every
SPR (LR, CTR, MSR, the XER so/ov/ca bits, and all 8 CR fields) is
Uninitialized. -/
theorem c8_branch_clobbers_caller_saved (fadd : Nat → Nat → Nat)
    (fn_address idx : Nat) (target : ℤ) (mode : Doldisasm.AddressingMode)
    (link : Bool) (bo : Doldisasm.BranchOptions) (bi : ℤ)
    (s : Doldisasm.BlockState) (t : Nat)
    (hlink : link = true →
      Doldisasm.Instruction.compute_branch_target (fn_address + 4 * idx) mode
        target = some t) :
    ∀ inst : Doldisasm.Instruction,
      inst = .branch target mode link ∨ inst = .bc bo bi target mode link →
      ∃ s2, Doldisasm.Analysis.apply_effect fadd fn_address idx inst s = some s2 ∧
        (∀ i, i = 0 ∨ (2 ≤ i ∧ i ≤ 12) →
          s2.gprs i = if link = true ∧ i = 3
            then ⟨false, .CallResult t⟩ else ⟨false, .Uninitialized⟩) ∧
        (∀ i, i = 1 ∨ 13 ≤ i → s2.gprs i = s.gprs i) ∧
        s2.sprs = Doldisasm.SprValues.allUninit ∧
        s2.memory = s.memory ∧ s2.diverging = s.diverging := by
  have hclob : ∀ (st : Doldisasm.BlockState) (i : Nat),
      i = 0 ∨ (2 ≤ i ∧ i ≤ 12) →
      st.clobber_caller_saved.gprs i = ⟨false, .Uninitialized⟩ := by
    intro st i hi
    have hc : i ≤ 12 ∧ ¬ i = 1 := by omega
    simp [Doldisasm.BlockState.clobber_caller_saved, hc]
  have hpres : ∀ (st : Doldisasm.BlockState) (i : Nat),
      i = 1 ∨ 13 ≤ i →
      st.clobber_caller_saved.gprs i = st.gprs i := by
    intro st i hi
    have hc : ¬ (i ≤ 12 ∧ ¬ i = 1) := by omega
    simp [Doldisasm.BlockState.clobber_caller_saved, hc]
  have hset : ∀ (st : Doldisasm.BlockState) (g : Nat) (v : Doldisasm.Value)
      (i : Nat), (st.set_gpr_value g v).gprs i =
        if i = g then ⟨(st.gprs i).value_read, v⟩ else st.gprs i :=
    fun _ _ _ _ => rfl
  intro inst hinst
  rcases hinst with rfl | rfl <;> cases link
  case inl.false =>
    refine ⟨s.clobber_caller_saved, rfl, ?_, fun i hi => hpres s i hi, rfl, rfl, rfl⟩
    intro i hi
    rw [hclob s i hi]
    simp
  case inl.true =>
    have ht := hlink rfl
    refine ⟨(s.clobber_caller_saved).set_gpr_value 3 (.CallResult t),
      by simp [Doldisasm.Analysis.apply_effect, Doldisasm.BlockState.markReads,
        Doldisasm.Instruction.readGprs, ht, Doldisasm.Value.call_result],
      ?_, ?_, rfl, rfl, rfl⟩
    · intro i hi
      rw [hset]
      by_cases h3 : i = 3
      · subst h3
        rw [hclob s 3 hi]
        simp
      · rw [if_neg h3, hclob s i hi]
        simp [h3]
    · intro i hi
      have h3 : ¬ i = 3 := by omega
      rw [hset, if_neg h3]
      exact hpres s i hi
  case inr.false =>
    refine ⟨s.clobber_caller_saved, rfl, ?_, fun i hi => hpres s i hi, rfl, rfl, rfl⟩
    intro i hi
    rw [hclob s i hi]
    simp
  case inr.true =>
    have ht := hlink rfl
    refine ⟨(s.clobber_caller_saved).set_gpr_value 3 (.CallResult t),
      by simp [Doldisasm.Analysis.apply_effect, Doldisasm.BlockState.markReads,
        Doldisasm.Instruction.readGprs, ht, Doldisasm.Value.call_result],
      ?_, ?_, rfl, rfl, rfl⟩
    · intro i hi
      rw [hset]
      by_cases h3 : i = 3
      · subst h3
        rw [hclob s 3 hi]
        simp
      · rw [if_neg h3, hclob s i hi]
        simp [h3]
    · intro i hi
      have h3 : ¬ i = 3 := by omega
      rw [hset, if_neg h3]
      exact hpres s i hi

/-- C9: for all constants `FROM ≤ TO` with the range valid for the 32-bit
destination (`TO ≤ 31`) and every 32-bit word `w`, `Word::u32::<FROM, TO>(w)`
equals `(w >> (31 - TO))` masked to the low `TO - FROM + 1` bits, and hence
lies in `[0, 2^(TO-FROM+1))`. -/
theorem c9_word_u32_extracts_field (FROM TO w : Nat)
    (hle : FROM ≤ TO) (hto : TO ≤ 31) (hw : w < 2 ^ 32) :
    Doldisasm.Word.u32 FROM TO w = (w >>> (31 - TO)) % 2 ^ (TO - FROM + 1) ∧
    Doldisasm.Word.u32 FROM TO w < 2 ^ (TO - FROM + 1) :=
  ⟨Doldisasm.Word.u32_eq FROM TO w hle hto, Doldisasm.Word.u32_lt FROM TO w hle hto⟩

/-- Witness for C9 at `FROM = 6`, `TO = 29`, `w = 0x48000001`
(the `b` instruction of spec scenario 1: the 24-bit target field is 0). -/
theorem c9_word_u32_extracts_field_witness :
    Doldisasm.Word.u32 6 29 0x48000001 = (0x48000001 >>> 2) % 2 ^ 24 ∧
    Doldisasm.Word.u32 6 29 0x48000001 < 2 ^ 24 :=
  c9_word_u32_extracts_field 6 29 0x48000001 (by decide) (by decide) (by norm_num)

/-- C6: for every 32-bit word, `BranchOptions::from_word` returns without
panicking — every 5-bit BO value that fails the six prioritized mask tests
satisfies `mask & 0b10100 == 0b10100`, so the terminal assertion never
fires — and the returned variant is the first of the seven priority cases
whose mask test the BO field satisfies. -/
theorem c6_branch_options_decode_total (w : Nat) :
    (Doldisasm.BranchOptions.from_word w).isSome ∧
    Doldisasm.BranchOptions.from_word w =
      Doldisasm.boPrioritySpec (Doldisasm.Word.u8 6 10 w) := by
  have hlt := Doldisasm.u8_6_10_lt w
  have key : ∀ m : Fin 32, (Doldisasm.BranchOptions.fromBO m.val).isSome ∧
      Doldisasm.BranchOptions.fromBO m.val = Doldisasm.boPrioritySpec m.val := by
    decide
  exact key ⟨_, hlt⟩

/-- C7 (amended): `decode_instruction` returns `UnexpectedEof { offset }`
exactly when fewer than 4 bytes remain (the state untouched); on a read
word that matches no decode rule it returns
`UnhandledOpcode { word, offset }` with `offset` the file offset of the
failing word (the offset before the 4-byte read); otherwise the offset
advances by exactly 4 and the matched field parsers run — yielding the
decoded instruction unless the word is an `Mftb` whose TBR code is invalid,
in which case the parser panics instead of returning. -/
theorem c7_decode_instruction_errors :
    (∀ s : Doldisasm.DecoderState, s.input.length < 4 →
      Doldisasm.decode_instruction s =
        (.error (.unexpectedEof s.offset), s)) ∧
    (∀ b0 b1 b2 b3 rest off,
      (¬ Doldisasm.isMatched (Doldisasm.beWord b0 b1 b2 b3) →
        Doldisasm.decode_instruction ⟨b0 :: b1 :: b2 :: b3 :: rest, off⟩ =
          (.error (.unhandledOpcode (Doldisasm.beWord b0 b1 b2 b3) off),
            ⟨rest, off + 4⟩)) ∧
      (Doldisasm.isMatched (Doldisasm.beWord b0 b1 b2 b3) →
        ∃ r, Doldisasm.decode_instruction ⟨b0 :: b1 :: b2 :: b3 :: rest, off⟩ =
            (.ok r, ⟨rest, off + 4⟩) ∧
          (r = none ↔
            Doldisasm.Word.opcode (Doldisasm.beWord b0 b1 b2 b3) = 31 ∧
            Doldisasm.Word.xform_opcode (Doldisasm.beWord b0 b1 b2 b3) = 371 ∧
            Doldisasm.TimeBaseRegister.from_word (Doldisasm.beWord b0 b1 b2 b3)
              = none))) := by
  constructor
  · intro s hs
    obtain ⟨input, off⟩ := s
    match input with
    | [] => rfl
    | [a] => rfl
    | [a, b] => rfl
    | [a, b, c] => rfl
    | a :: b :: c :: d :: t => simp at hs; omega
  · intro b0 b1 b2 b3 rest off
    constructor
    · intro hnm
      simp [Doldisasm.decode_instruction,
        Doldisasm.decode_from_word_unmatched _ _ hnm]
    · intro hmatch
      obtain ⟨r, hr⟩ :=
        Doldisasm.decode_from_word_matched (off + 4) (Doldisasm.beWord b0 b1 b2 b3)
          hmatch
      refine ⟨r, by simp [Doldisasm.decode_instruction, hr], ?_⟩
      have hiff :=
        Doldisasm.decode_from_word_none_iff (off + 4) (Doldisasm.beWord b0 b1 b2 b3)
      rw [hr] at hiff
      simpa using hiff

/-- Witness for C7: the empty input yields `UnexpectedEof { offset: 0 }`,
and the all-zero word (opcode 0, no rule) yields
`UnhandledOpcode { word: 0, offset: 0 }` with the offset advanced past it. -/
theorem c7_decode_instruction_errors_witness :
    Doldisasm.decode_instruction ⟨([] : List Nat), 0⟩ =
      (.error (.unexpectedEof 0), ⟨[], 0⟩) ∧
    Doldisasm.decode_instruction ⟨[0, 0, 0, 0], 0⟩ =
      (.error (.unhandledOpcode 0 0), ⟨[], 4⟩) := by
  refine ⟨c7_decode_instruction_errors.1 ⟨[], 0⟩ (by decide), ?_⟩
  have h := (c7_decode_instruction_errors.2 0 0 0 0 [] 0).1 (by decide)
  simpa [Doldisasm.beWord] using h

/-- Counterexample for C7 as stated: the word `0x7C0002E6` matches the
`Mftb` decode rule `(31, 371)` but its TBR code is 0, so the decoder
panics (`.ok none`) instead of returning a decoded instruction. -/
theorem c7_decode_instruction_errors_cx :
    (Doldisasm.decode_instruction ⟨[0x7C, 0x00, 0x02, 0xE6], 0⟩).1 = .ok none ∧
    ∀ i : Doldisasm.Instruction,
      (Doldisasm.decode_instruction ⟨[0x7C, 0x00, 0x02, 0xE6], 0⟩).1 ≠
        .ok (some i) := by
  have h0 : (Doldisasm.decode_instruction ⟨[0x7C, 0x00, 0x02, 0xE6], 0⟩).1 =
      .ok none := by rfl
  exact ⟨h0, fun i hi => by rw [h0] at hi; exact Option.noConfusion (Except.ok.inj hi)⟩

/-- C10: every byte vector accepted by `Dol::new` has length at least 0xFF,
so `entrypoint()`, `bss_address()`, `bss_size()` and `section(i)` for
`i ≤ 17` read only in-bounds bytes (the furthest header read ends at byte
offset 0xE4 ≤ 0xFF) and cannot panic; `section(i)` for `i > 17` fails its
assertion. -/
theorem c10_dol_header_reads_in_bounds (bytes : List Nat) (d : Doldisasm.Dol)
    (h : Doldisasm.Dol.new bytes = some d) :
    d.entrypoint.isSome ∧ d.bss_address.isSome ∧ d.bss_size.isSome ∧
    (∀ i, i ≤ 17 → (d.section i).isSome) ∧
    (∀ i, 17 < i → d.section i = none) := by
  unfold Doldisasm.Dol.new at h
  by_cases hlen : bytes.length < 0xFF
  · simp [hlen] at h
  · simp only [hlen, if_false, Option.some.injEq] at h
    subst h
    have hge : 0xFF ≤ bytes.length := Nat.not_lt.mp hlen
    refine ⟨?_, ?_, ?_, ?_, ?_⟩
    · simp [Doldisasm.Dol.entrypoint, Doldisasm.Dol.u32At]; omega
    · simp [Doldisasm.Dol.bss_address, Doldisasm.Dol.u32At]; omega
    · simp [Doldisasm.Dol.bss_size, Doldisasm.Dol.u32At]; omega
    · intro i hi
      have g1 : i * 4 + 4 ≤ bytes.length := by omega
      have g2 : 0x48 + i * 4 + 4 ≤ bytes.length := by omega
      have g3 : 0x90 + i * 4 + 4 ≤ bytes.length := by omega
      simp [Doldisasm.Dol.section, hi, Doldisasm.Dol.u32At, g1, g2, g3]
    · intro i hi
      simp [Doldisasm.Dol.section, Nat.not_le.mpr hi]

set_option maxRecDepth 4000 in
/-- Witness for C10 on the 255-byte all-zero DOL image. -/
theorem c10_dol_header_reads_in_bounds_witness :
    (Doldisasm.Dol.entrypoint ⟨List.replicate 0xFF 0⟩).isSome ∧
    (Doldisasm.Dol.section ⟨List.replicate 0xFF 0⟩ 17).isSome ∧
    Doldisasm.Dol.section ⟨List.replicate 0xFF 0⟩ 18 = none := by
  have h := c10_dol_header_reads_in_bounds (List.replicate 0xFF 0)
    ⟨List.replicate 0xFF 0⟩ rfl
  exact ⟨h.1, h.2.2.2.1 17 (by decide), h.2.2.2.2 18 (by decide)⟩

/-- Witness for C8: `bl` (link = true, relative target 8) at address
0x1000 in the initial state assigns `CallResult(0x1008)` to GPR3. -/
theorem c8_branch_clobbers_caller_saved_witness :
    ∃ s2, Doldisasm.Analysis.apply_effect (fun _ _ => 0) 0x1000 0
        (.branch 8 .relative true) Doldisasm.BlockState.initial = some s2 ∧
      (∀ i, i = 0 ∨ (2 ≤ i ∧ i ≤ 12) →
        s2.gprs i = if (true : Bool) = true ∧ i = 3
          then ⟨false, .CallResult 0x1008⟩ else ⟨false, .Uninitialized⟩) ∧
      (∀ i, i = 1 ∨ 13 ≤ i →
        s2.gprs i = Doldisasm.BlockState.initial.gprs i) ∧
      s2.sprs = Doldisasm.SprValues.allUninit ∧
      s2.memory = Doldisasm.BlockState.initial.memory ∧
      s2.diverging = Doldisasm.BlockState.initial.diverging :=
  c8_branch_clobbers_caller_saved (fun _ _ => 0) 0x1000 0 8 .relative true
    .branchAlways 0 Doldisasm.BlockState.initial 0x1008
    (fun _ => by decide) (.branch 8 .relative true) (Or.inl rfl)

/-- C5: with an unbounded range, once the window decoder yields an
unconditional return `Bclr{BranchAlways, link: false}` or an unconditional
`Branch{link: false}` whose address lies outside every recorded conditional
interval, `reached_end` is set and the next call returns "no more"; on the
4-instruction window `[addi r3,r0,1; stw r3,0(r1); blr; <garbage>]` with no
recorded conditional intervals it yields exactly three instructions and
then "no more". -/
theorem c5_window_decoder_terminates :
    (∀ (d : Doldisasm.WindowDecoder) (i : Doldisasm.Instruction)
        (dec2 : Doldisasm.DecoderState) (bi target : ℤ)
        (mode : Doldisasm.AddressingMode),
      d.reached_end = false →
      d.range.stop = .unbounded →
      Doldisasm.decode_instruction d.dec = (.ok (some i), dec2) →
      (i = .bclr .branchAlways bi false ∨ i = .branch target mode false) →
      Doldisasm.outsideAll (d.range.start + d.dec.offset)
        d.conditional_ranges = true →
      Doldisasm.WindowDecoder.next d =
        (.inst (d.range.start + d.dec.offset) i,
          { d with dec := dec2, reached_end := true }) ∧
      Doldisasm.WindowDecoder.next { d with dec := dec2, reached_end := true } =
        (.noMore, { d with dec := dec2, reached_end := true })) ∧
    (Doldisasm.WindowDecoder.next (Doldisasm.demoWindow 0 false) =
        (.inst 0x1000 (.addi 3 0 1), Doldisasm.demoWindow 1 false) ∧
      Doldisasm.WindowDecoder.next (Doldisasm.demoWindow 1 false) =
        (.inst 0x1004 (.stw 3 1 0), Doldisasm.demoWindow 2 false) ∧
      Doldisasm.WindowDecoder.next (Doldisasm.demoWindow 2 false) =
        (.inst 0x1008 (.bclr .branchAlways 0 false), Doldisasm.demoWindow 3 true) ∧
      Doldisasm.WindowDecoder.next (Doldisasm.demoWindow 3 true) =
        (.noMore, Doldisasm.demoWindow 3 true)) := by
  constructor
  · intro d i dec2 bi target mode hre hub hdec hshape hout
    constructor
    · rcases hshape with rfl | rfl <;>
        simp [Doldisasm.WindowDecoder.next, hub, hre, hdec,
          Doldisasm.isUncondEnd, hout]
    · simp [Doldisasm.WindowDecoder.next, hub]
  · refine ⟨by decide, by decide, by decide, by decide⟩

/-- Witness for C5: the general termination rule applied at the `blr` of
the demo window. -/
theorem c5_window_decoder_terminates_witness :
    Doldisasm.WindowDecoder.next (Doldisasm.demoWindow 2 false) =
      (.inst ((Doldisasm.demoWindow 2 false).range.start +
          (Doldisasm.demoWindow 2 false).dec.offset)
        (.bclr .branchAlways 0 false),
        { Doldisasm.demoWindow 2 false with
            dec := ⟨[0, 0, 0, 0], 12⟩, reached_end := true }) ∧
    Doldisasm.WindowDecoder.next
        { Doldisasm.demoWindow 2 false with
            dec := ⟨[0, 0, 0, 0], 12⟩, reached_end := true } =
      (.noMore,
        { Doldisasm.demoWindow 2 false with
            dec := ⟨[0, 0, 0, 0], 12⟩, reached_end := true }) :=
  c5_window_decoder_terminates.1 (Doldisasm.demoWindow 2 false)
    (.bclr .branchAlways 0 false) ⟨[0, 0, 0, 0], 12⟩ 0 0 .relative rfl rfl
    (by decide) (Or.inl rfl) (by decide)
